import Mathlib

/-!
Verification of the block-breaker game simulation and scoring engine
(`src/components/block-breaker-3d.tsx`): level configuration, block field
generation, hit resolution with area-of-effect damage, combo scoring,
power-up effects, and the per-second level timer.

Modelling conventions: JavaScript numbers appearing as integers are `ℤ`
(or `ℕ` for ids/counts), fractional constants are exact rationals,
`Math.random()` is an injected stream of rationals, and `Math.sqrt`
comparisons are carried out on squared distances (with a bridging lemma
to the real-valued formula where the damage value itself depends on the
square root).
-/

namespace BlockBreaker

inductive BlockType where
  | normal | explosive | heavy | bonus | shield
deriving DecidableEq, Repr

inductive PowerUpType where
  | hammer | bomb | freeze | multiplier
deriving DecidableEq, Repr

inductive GameStateTag where
  | start | playing | levelComplete | gameOver | gameComplete
deriving DecidableEq, Repr

structure SpecialBlocks where
  explosive : ℕ
  heavy : ℕ
  bonus : ℕ
  shield : ℕ
deriving DecidableEq, Repr

structure LevelConfig where
  blockCount : ℕ
  blockHealth : ℤ
  timeLimit : ℤ
  rows : ℕ
  columns : ℕ
  layers : ℕ
  specialBlocks : SpecialBlocks
deriving DecidableEq, Repr

/-- Level Configuration Generator: `getLevelConfig` from
`block-breaker-3d.tsx` (lines 1820–1869).
`Math.floor(x * 0.5)` on a nonnegative integer `x` is exact in floating
point and equals natural division by 2; `Math.ceil(level * 1.0)` is
`level`. -/
def getLevelConfig (level : ℕ) (isLowPerformance : Bool) : LevelConfig :=
  let baseBlocks : ℕ := 6
  let additionalBlocks : ℕ := min (level * 2) 20
  let totalBlocks : ℕ := baseBlocks + additionalBlocks
  -- rows/columns/layers: 2,3,1; overridden to 3,4,2 when level > 3; to 4,5,3 when level > 6
  let rows : ℕ := if level > 6 then 4 else if level > 3 then 3 else 2
  let columns : ℕ := if level > 6 then 5 else if level > 3 then 4 else 3
  let layers : ℕ := if level > 6 then 3 else if level > 3 then 2 else 1
  let rows : ℕ := if isLowPerformance then max 2 (rows / 2) else rows
  let columns : ℕ := if isLowPerformance then max 2 (columns / 2) else columns
  let layers : ℕ := if isLowPerformance then 1 else layers
  { blockCount := if isLowPerformance then totalBlocks / 2 else totalBlocks
    blockHealth := (level : ℤ)
    timeLimit := 10
    rows := rows
    columns := columns
    layers := layers
    specialBlocks :=
      { explosive := min (level / 2) 5
        heavy := min (level / 3) 3
        bonus := min (level / 2) 4
        shield := min (level / 4) 2 } }

structure Block where
  id : ℕ
  position : ℚ × ℚ × ℚ
  size : ℚ × ℚ × ℚ
  color : ℕ
  health : ℤ
  maxHealth : ℤ
  blockType : BlockType
deriving DecidableEq, Repr

structure PowerUp where
  type : PowerUpType
  position : ℚ × ℚ × ℚ
deriving DecidableEq, Repr

/-- The component state of `BlockBreaker3D` that the game logic reads and
writes (the GameSession of the spec). -/
structure GameSession where
  gameState : GameStateTag
  level : ℕ
  score : ℤ
  timeLeft : ℤ
  combo : ℤ
  lastBlockDestroyTime : ℤ
  activePowerUp : Option PowerUpType
  powerUpTimeLeft : ℤ
  blocks : List Block
  powerUps : List PowerUp
  blocksDestroyed : ℤ
  totalBlocksDestroyed : ℤ
deriving DecidableEq, Repr

/-- Squared Euclidean distance between two positions; the source computes
`Math.sqrt` of this and compares it with the effect radius, which is
equivalent to comparing this value with the squared radius. -/
def dist2 (p q : ℚ × ℚ × ℚ) : ℚ :=
  (p.1 - q.1)^2 + (p.2.1 - q.2.1)^2 + (p.2.2 - q.2.2)^2

/-- Explosion damage `Math.ceil((explosionRadius - distance) * 2)` for
`distance = √dsq < 3`, computed without the square root: the result
n ∈ [1,6] counts how many k ∈ [0,6) satisfy √dsq < 3 - k/2, i.e.
dsq < (3 - k/2)². Lemma `explosionDamage_eq_ceil` identifies this with
the real-valued ceiling formula of the source. -/
def explosionDamage (dsq : ℚ) : ℤ :=
  ((List.range 6).countP (fun (k : ℕ) => decide (dsq < (3 - (k : ℚ)/2)^2)) : ℤ)

/-- The `Map.set` operation on the association-list model of the JS `Map` used for
`blocksToProcess`: replaces the value at an existing key, else appends. -/
def mapSet (m : List (ℕ × ℤ)) (k : ℕ) (v : ℤ) : List (ℕ × ℤ) :=
  if m.any (fun e => e.1 == k) then m.map (fun e => if e.1 == k then (k, v) else e)
  else m ++ [(k, v)]

/-- The `Map.get` operation on the association-list model. -/
def mapGet (m : List (ℕ × ℤ)) (k : ℕ) : Option ℤ :=
  (m.find? (fun e => e.1 == k)).map (·.2)

/-- The `blocksToProcess` damage map built in `handleBlockDestroy`
(lines 2066–2113): seeded with `{id ↦ destroyedBlock.health}`, then one
entry per other block within range, the radius and per-distance damage
depending on the tapped block's type. -/
def damageMapFor (isLowPerformance : Bool) (blocks : List Block) (id : ℕ)
    (destroyed : Block) : List (ℕ × ℤ) :=
  let seeded : List (ℕ × ℤ) := mapSet [] id destroyed.health
  if destroyed.blockType = BlockType.explosive then
    -- explosionRadius = 3
    blocks.foldl (fun m block =>
      if block.id ≠ id ∧ dist2 destroyed.position block.position < 3^2 then
        mapSet m block.id (explosionDamage (dist2 destroyed.position block.position))
      else m) seeded
  else
    let effectRadius : ℚ := if isLowPerformance then 1.2 else 1.5
    blocks.foldl (fun m block =>
      if block.id ≠ id ∧ dist2 destroyed.position block.position < effectRadius^2 then
        mapSet m block.id
          (if dist2 destroyed.position block.position < (0.8 : ℚ)^2 then 2 else 1)
      else m) seeded

/-- Damage application to one block (lines 2116–2127): shield blocks take
`Math.ceil(damage / 2)`, others the full damage; health floors at 0. -/
def applyDamageToBlock (damage : ℤ) (block : Block) : Block :=
  let actualDamage : ℤ :=
    if block.blockType = BlockType.shield then ⌈(damage : ℚ) / 2⌉ else damage
  { block with health := max 0 (block.health - actualDamage) }

/-- First pass of `handleBlockDestroy`: the damage map is applied entry by
entry, each entry updating every block whose id matches its key. -/
def applyDamageMap (m : List (ℕ × ℤ)) (blocks : List Block) : List Block :=
  m.foldl (fun bs e =>
    bs.map (fun block => if block.id = e.1 then applyDamageToBlock e.2 block else block))
    blocks

/-- The cumulative effect of all damage-map entries on a single block;
`applyDamageMap` is pointwise this function (`applyDamageMap_eq_map`). -/
def applyEntries (m : List (ℕ × ℤ)) (block : Block) : Block :=
  m.foldl (fun bl e => if bl.id = e.1 then applyDamageToBlock e.2 bl else bl) block

/-- Hit Resolution Engine: `handleBlockDestroy` (lines 2026–2160), including
the Combo & Scoring Tracker update, as a pure transition on the session state.
`now` stands for `Date.now()` at the destruction event. -/
def handleBlockDestroy (isLowPerformance : Bool) (now : ℤ) (id : ℕ)
    (s : GameSession) : GameSession :=
  match s.blocks.find? (fun b => b.id == id) with
  | none => s
  | some destroyedBlock =>
    let timeSinceLastDestroy := now - s.lastBlockDestroyTime
    let combo := if timeSinceLastDestroy < 1000 then s.combo + 1 else 1
    let blockScore := (s.level : ℤ) * 10
    let blockScore :=
      if destroyedBlock.blockType = BlockType.bonus then blockScore * 2 else blockScore
    -- the source multiplies by Math.min(combo + 1, 5) where `combo` is the
    -- pre-update state value captured by the closure
    let blockScore := blockScore * min (s.combo + 1) 5
    let blockScore :=
      if s.activePowerUp = some PowerUpType.multiplier then blockScore * 2 else blockScore
    let blocksToProcess := damageMapFor isLowPerformance s.blocks id destroyedBlock
    let updatedBlocks := applyDamageMap blocksToProcess s.blocks
    let destroyedCount : ℤ :=
      (updatedBlocks.countP (fun (b : Block) => decide (b.health ≤ 0)) : ℤ)
    let updatedBlocks := updatedBlocks.filter (fun b => !decide (b.health ≤ 0))
    { s with
      combo := combo
      lastBlockDestroyTime := now
      score := s.score + blockScore
      blocksDestroyed := s.blocksDestroyed + destroyedCount
      totalBlocksDestroyed := s.totalBlocksDestroyed + destroyedCount
      gameState := if updatedBlocks = [] then GameStateTag.levelComplete else s.gameState
      timeLeft := if updatedBlocks = [] then 0 else s.timeLeft
      blocks := updatedBlocks }

/-- Direct-tap damage: `handleBlockDamage` (lines 2163–2176), subtracting 1 on the
block with the given id (no floor at 0 here). -/
def handleBlockDamage (id : ℕ) (s : GameSession) : GameSession :=
  { s with blocks :=
      s.blocks.map (fun b => if b.id = id then { b with health := b.health - 1 } else b) }

/-- Power-Up Effect Controller: `handlePowerUpCollect` (lines 2179–2223): sets the active power-up,
then applies the per-type effect; bomb is instantaneous (filters out every
non-shield block with health ≤ 2, awarding level×10 each) and clears the
active power-up again; finally all pending power-ups of the collected
type are removed. -/
def handlePowerUpCollect (t : PowerUpType) (s : GameSession) : GameSession :=
  let s := { s with activePowerUp := some t }
  let s :=
    match t with
    | PowerUpType.hammer => { s with powerUpTimeLeft := 10 }
    | PowerUpType.bomb =>
      let removedCount : ℤ :=
        (s.blocks.countP
          (fun (b : Block) => decide (b.health ≤ 2 ∧ b.blockType ≠ BlockType.shield)) : ℤ)
      { s with
        blocks := s.blocks.filter
          (fun b => !decide (b.health ≤ 2 ∧ b.blockType ≠ BlockType.shield))
        blocksDestroyed := s.blocksDestroyed + removedCount
        totalBlocksDestroyed := s.totalBlocksDestroyed + removedCount
        score := s.score + removedCount * ((s.level : ℤ) * 10)
        powerUpTimeLeft := 0
        activePowerUp := none }
    | PowerUpType.freeze => { s with powerUpTimeLeft := 5 }
    | PowerUpType.multiplier => { s with powerUpTimeLeft := 10 }
  { s with powerUps := s.powerUps.filter (fun p => !decide (p.type = t)) }

/-- An injected random source: a stream of rationals (each draw stands for
one `Math.random()` call, a value in [0,1)) together with a cursor. -/
structure Rng where
  stream : ℕ → ℚ
  idx : ℕ

/-- Draw the next random value. -/
def Rng.next (r : Rng) : ℚ × Rng := (r.stream r.idx, { r with idx := r.idx + 1 })

/-- Threaded state of `initializeLevel`'s block-generation loops:
the random source, the `blockId` counter, `specialBlocksCount`, and the
`newBlocks` accumulator. -/
structure GenState where
  rng : Rng
  nextId : ℕ
  counts : SpecialBlocks
  blocks : List Block

/-- Fourth stage of the special-type else-if chain (shield, 10% while
quota remains). The JS `&&` draws a random number only when the quota
check passes. -/
def tryShield (cfg : LevelConfig) (counts : SpecialBlocks) (rng : Rng) :
    BlockType × SpecialBlocks × Rng :=
  if counts.shield < cfg.specialBlocks.shield then
    let (r, rng') := rng.next
    if r < 0.1 then (BlockType.shield, { counts with shield := counts.shield + 1 }, rng')
    else (BlockType.normal, counts, rng')
  else (BlockType.normal, counts, rng)

/-- Third stage of the chain (bonus, 20% while quota remains). -/
def tryBonus (cfg : LevelConfig) (counts : SpecialBlocks) (rng : Rng) :
    BlockType × SpecialBlocks × Rng :=
  if counts.bonus < cfg.specialBlocks.bonus then
    let (r, rng') := rng.next
    if r < 0.2 then (BlockType.bonus, { counts with bonus := counts.bonus + 1 }, rng')
    else tryShield cfg counts rng'
  else tryShield cfg counts rng

/-- Second stage of the chain (heavy, 15% while quota remains). -/
def tryHeavy (cfg : LevelConfig) (counts : SpecialBlocks) (rng : Rng) :
    BlockType × SpecialBlocks × Rng :=
  if counts.heavy < cfg.specialBlocks.heavy then
    let (r, rng') := rng.next
    if r < 0.15 then (BlockType.heavy, { counts with heavy := counts.heavy + 1 }, rng')
    else tryBonus cfg counts rng'
  else tryBonus cfg counts rng

/-- First stage of the chain (explosive, 20% while quota remains); entry
point of the block-type assignment in `initializeLevel`. -/
def tryExplosive (cfg : LevelConfig) (counts : SpecialBlocks) (rng : Rng) :
    BlockType × SpecialBlocks × Rng :=
  if counts.explosive < cfg.specialBlocks.explosive then
    let (r, rng') := rng.next
    if r < 0.2 then
      (BlockType.explosive, { counts with explosive := counts.explosive + 1 }, rng')
    else tryHeavy cfg counts rng'
  else tryHeavy cfg counts rng

/-- Per-type health adjustment of `initializeLevel` (heavy ×1.5,
bonus ×0.7, shield ×1.2, each with `Math.ceil`). -/
def blockHealthFor (t : BlockType) (h : ℤ) : ℤ :=
  match t with
  | BlockType.heavy => ⌈(h : ℚ) * 1.5⌉
  | BlockType.bonus => ⌈(h : ℚ) * 0.7⌉
  | BlockType.shield => ⌈(h : ℚ) * 1.2⌉
  | _ => h

/-- One grid cell of `initializeLevel` (lines 1893–1944): draw the skip
check, and when the cell is included (70% chance, cell (0,0,0) always)
draw position jitter, size, block type and color, and append the block
with the next sequential id. -/
def genCell (cfg : LevelConfig) (layer row col : ℕ) (st : GenState) : GenState :=
  let (rskip, rng) := st.rng.next
  if rskip > 0.3 ∨ (row = 0 ∧ col = 0 ∧ layer = 0) then
    let (rx, rng) := rng.next
    let x : ℚ := ((col : ℚ) - (cfg.columns : ℚ) / 2) * 1.5 + (rx * 0.4 - 0.2)
    let y : ℚ := (layer : ℚ) * 1.2 + 0.5
    let (rz, rng) := rng.next
    let z : ℚ := ((row : ℚ) - (cfg.rows : ℚ) / 2) * 1.5 + (rz * 0.4 - 0.2)
    let (rsx, rng) := rng.next
    let (rsy, rng) := rng.next
    let (rsz, rng) := rng.next
    let (t, counts, rng) := tryExplosive cfg st.counts rng
    let health := blockHealthFor t cfg.blockHealth
    let (rc, rng) := rng.next
    { rng := rng
      nextId := st.nextId + 1
      counts := counts
      blocks := st.blocks ++ [{
        id := st.nextId
        position := (x, y, z)
        size := (0.8 + rsx * 0.2, 0.8 + rsy * 0.2, 0.8 + rsz * 0.2)
        color := (⌊rc * 5⌋).toNat
        health := health
        maxHealth := health
        blockType := t }] }
  else { st with rng := rng }

/-- The triple grid loop of `initializeLevel` over layers, rows, columns. -/
def genGrid (cfg : LevelConfig) (st : GenState) : GenState :=
  (List.range cfg.layers).foldl (fun st layer =>
    (List.range cfg.rows).foldl (fun st row =>
      (List.range cfg.columns).foldl (fun st col =>
        genCell cfg layer row col st) st) st) st

/-- One iteration of the filler `while` loop (lines 1947–1964): a normal
block at a random position with the next sequential id. -/
def genFiller (cfg : LevelConfig) (st : GenState) : GenState :=
  let (rx, rng) := st.rng.next
  let (ry, rng) := rng.next
  let (rz, rng) := rng.next
  let (rsx, rng) := rng.next
  let (rsy, rng) := rng.next
  let (rsz, rng) := rng.next
  let (rc, rng) := rng.next
  { st with
    rng := rng
    nextId := st.nextId + 1
    blocks := st.blocks ++ [{
      id := st.nextId
      position := (rx * 6 - 3, ry * 3 + 0.5, rz * 6 - 3)
      size := (0.8 + rsx * 0.2, 0.8 + rsy * 0.2, 0.8 + rsz * 0.2)
      color := (⌊rc * 5⌋).toNat
      health := cfg.blockHealth
      maxHealth := cfg.blockHealth
      blockType := BlockType.normal }] }

/-- The filler `while (newBlocks.length < config.blockCount)` loop: each
iteration appends exactly one block, so it runs exactly
`blockCount - length` times (truncated at 0). -/
def padToCount (cfg : LevelConfig) : ℕ → GenState → GenState
  | 0, st => st
  | n + 1, st => padToCount cfg n (genFiller cfg st)

/-- The Block Field Generator portion of `initializeLevel`
(lines 1884–1964): grid pass then filler padding. -/
def initializeLevelBlocks (cfg : LevelConfig) (rng : Rng) : List Block :=
  let st := genGrid cfg
    { rng := rng, nextId := 0
      counts := { explosive := 0, heavy := 0, bonus := 0, shield := 0 }
      blocks := [] }
  (padToCount cfg (cfg.blockCount - st.blocks.length) st).blocks

/-- One firing of the one-second level-countdown timeout (lines 2226–2248).
The effect schedules the timeout only while `gameState = playing` and
`timeLeft > 0`; when it fires, time decreases only if the freeze power-up
is not active, and a decrement that reaches 0 triggers gameOver. -/
def timerTick (s : GameSession) : GameSession :=
  if s.gameState = GameStateTag.playing ∧ 0 < s.timeLeft then
    if s.activePowerUp ≠ some PowerUpType.freeze then
      let newTime := s.timeLeft - 1
      { s with
        timeLeft := newTime
        gameState := if newTime = 0 then GameStateTag.gameOver else s.gameState }
    else s
  else s

/-! Concrete fixtures used by the counterexamples and witnesses below. -/

/-- A block with unit size, palette color 0 and full health. -/
def testBlock (id : ℕ) (pos : ℚ × ℚ × ℚ) (h : ℤ) (t : BlockType) : Block :=
  { id := id, position := pos, size := (1, 1, 1), color := 0, health := h,
    maxHealth := h, blockType := t }

/-- A fresh playing session at level 1 holding the given blocks. -/
def baseSession (bs : List Block) : GameSession :=
  { gameState := GameStateTag.playing, level := 1, score := 0, timeLeft := 10,
    combo := 0, lastBlockDestroyTime := 0, activePowerUp := none,
    powerUpTimeLeft := 0, blocks := bs, powerUps := [], blocksDestroyed := 0,
    totalBlocksDestroyed := 0 }

/-- Session with an ongoing combo of 4 and one normal block. -/
def sCombo : GameSession :=
  { baseSession [testBlock 0 (0, 0, 0) 1 BlockType.normal] with combo := 4 }

/-- Session holding a single shield block of health 2. -/
def sShield : GameSession := baseSession [testBlock 0 (0, 0, 0) 2 BlockType.shield]

/-- Session holding a single normal block of health 1. -/
def sSolo : GameSession := baseSession [testBlock 0 (0, 0, 0) 1 BlockType.normal]

/-- Session with no blocks, used for timer facts. -/
def sTimer : GameSession := baseSession []

/-- Level-4 session with two bombable blocks and one shield block. -/
def sBomb : GameSession :=
  { baseSession [testBlock 0 (0, 0, 0) 2 BlockType.normal,
      testBlock 1 (0, 0, 0) 2 BlockType.shield,
      testBlock 2 (0, 0, 0) 3 BlockType.normal] with level := 4 }

/-- An explosive block at the origin. -/
def c4b : Block := testBlock 0 (0, 0, 0) 1 BlockType.explosive

/-- The explosive block plus neighbors at distances 0.5, 1.5, 2.9 with
health 9, and one at distance 0.5 with health 3 (to exhibit the floor
at 0). -/
def c4blocks : List Block :=
  [c4b, testBlock 1 (1/2, 0, 0) 9 BlockType.normal,
   testBlock 2 (3/2, 0, 0) 9 BlockType.normal,
   testBlock 3 (29/10, 0, 0) 9 BlockType.normal,
   testBlock 4 (0, 1/2, 0) 3 BlockType.normal]

/-! Helper lemmas about the damage map and its application. -/

theorem foldl_preserves {α : Type} {β : Type} (g : α → β → α) (P : α → Prop)
    (h : ∀ a b, P a → P (g a b)) : ∀ (l : List β) (a : α), P a → P (l.foldl g a) := by
  intro l
  induction l with
  | nil => intro a ha; simpa using ha
  | cons x xs ih => intro a ha; simpa using ih _ (h a x ha)

theorem applyDamageToBlock_id (v : ℤ) (b : Block) : (applyDamageToBlock v b).id = b.id := rfl

theorem applyEntries_cons (e : ℕ × ℤ) (m : List (ℕ × ℤ)) (b : Block) :
    applyEntries (e :: m) b =
      applyEntries m (if b.id = e.1 then applyDamageToBlock e.2 b else b) := rfl

theorem applyEntries_id (m : List (ℕ × ℤ)) (b : Block) : (applyEntries m b).id = b.id := by
  induction m generalizing b with
  | nil => rfl
  | cons e m ih =>
    rw [applyEntries_cons]
    split
    · rw [ih]; rfl
    · exact ih b

theorem applyDamageMap_eq_map (m : List (ℕ × ℤ)) (bs : List Block) :
    applyDamageMap m bs = bs.map (applyEntries m) := by
  induction m generalizing bs with
  | nil =>
    have h : applyEntries ([] : List (ℕ × ℤ)) = fun b => b := rfl
    simp [applyDamageMap, h]
  | cons e m ih =>
    have h1 : applyDamageMap (e :: m) bs =
        applyDamageMap m
          (bs.map (fun b => if b.id = e.1 then applyDamageToBlock e.2 b else b)) := rfl
    rw [h1, ih, List.map_map]
    rfl

theorem applyEntries_skip (m : List (ℕ × ℤ)) (b : Block) (h : ∀ e ∈ m, e.1 ≠ b.id) :
    applyEntries m b = b := by
  induction m generalizing b with
  | nil => rfl
  | cons e m ih =>
    rw [applyEntries_cons, if_neg (fun hbe => h e (List.mem_cons_self e m) hbe.symm)]
    exact ih b (fun e' he' => h e' (List.mem_cons_of_mem e he'))

theorem applyEntries_single (m : List (ℕ × ℤ)) (b : Block) (v : ℤ)
    (hkeys : (m.map Prod.fst).Nodup) (hmem : (b.id, v) ∈ m) :
    applyEntries m b = applyDamageToBlock v b := by
  induction m with
  | nil => simp at hmem
  | cons e m ih =>
    have hk := hkeys
    rw [List.map_cons, List.nodup_cons] at hk
    rcases List.mem_cons.mp hmem with he | hm
    · rw [applyEntries_cons, ← he, if_pos rfl]
      apply applyEntries_skip
      intro e' he' h1
      rw [applyDamageToBlock_id] at h1
      have hb : e.1 = b.id := by rw [← he]
      refine hk.1 ?_
      have h2 : e'.1 ∈ m.map Prod.fst := List.mem_map_of_mem Prod.fst he'
      rwa [h1, ← hb] at h2
    · have hne : e.1 ≠ b.id := by
        intro h1
        exact hk.1 (h1 ▸ (List.mem_map_of_mem Prod.fst hm : (b.id, v).1 ∈ m.map Prod.fst))
      rw [applyEntries_cons, if_neg (fun hh => hne hh.symm)]
      exact ih hk.2 hm

/-! Association-list lemmas for the JS `Map` model. -/

theorem mapSet_keys (m : List (ℕ × ℤ)) (k : ℕ) (v : ℤ) :
    (mapSet m k v).map Prod.fst =
      if m.any (fun e => e.1 == k) then m.map Prod.fst else m.map Prod.fst ++ [k] := by
  unfold mapSet
  split
  · rw [List.map_map]
    apply List.map_congr_left
    intro e _
    by_cases he : e.1 = k
    · simp [he]
    · simp [he]
  · simp

theorem mapSet_keys_nodup (m : List (ℕ × ℤ)) (k : ℕ) (v : ℤ)
    (h : (m.map Prod.fst).Nodup) : ((mapSet m k v).map Prod.fst).Nodup := by
  rw [mapSet_keys]
  split
  · exact h
  · rename_i hany
    have hk : k ∉ m.map Prod.fst := by
      intro hmem
      rcases List.mem_map.mp hmem with ⟨e, hem, hek⟩
      exact hany (List.any_eq_true.mpr ⟨e, hem, by simp [hek]⟩)
    simp [List.nodup_append, h, hk]

theorem mem_mapSet_preserve (m : List (ℕ × ℤ)) (k : ℕ) (v : ℤ) (k' : ℕ) (v' : ℤ)
    (hne : k' ≠ k) (hm : (k', v') ∈ m) : (k', v') ∈ mapSet m k v := by
  unfold mapSet
  split
  · refine List.mem_map.mpr ⟨(k', v'), hm, ?_⟩
    simp [hne]
  · exact List.mem_append_left _ hm

theorem mapSet_entry (m : List (ℕ × ℤ)) (k : ℕ) (v : ℤ) (e' : ℕ × ℤ)
    (h : e' ∈ mapSet m k v) : e' = (k, v) ∨ (e' ∈ m ∧ e'.1 ≠ k) := by
  unfold mapSet at h
  split at h
  · rcases List.mem_map.mp h with ⟨e, hem, hfe⟩
    by_cases hek : e.1 = k
    · left; rw [← hfe]; simp [hek]
    · right
      have hfe2 : e' = e := by rw [← hfe]; simp [hek]
      rw [hfe2]
      exact ⟨hem, hek⟩
  · rename_i hany
    rcases List.mem_append.mp h with hm | hk
    · right
      refine ⟨hm, fun h1 => hany (List.any_eq_true.mpr ⟨e', hm, by simp [h1]⟩)⟩
    · left; simpa using hk

theorem mapGet_mapSet_self (m : List (ℕ × ℤ)) (k : ℕ) (v : ℤ) :
    mapGet (mapSet m k v) k = some v := by
  unfold mapSet
  split
  · rename_i hany
    induction m with
    | nil => simp at hany
    | cons e m ih =>
      by_cases he : e.1 = k
      · simp [mapGet, List.find?_cons, he]
      · have hany' : m.any (fun e => e.1 == k) = true := by
          rcases List.any_eq_true.mp hany with ⟨e', he', hk'⟩
          rcases List.mem_cons.mp he' with rfl | hm
          · exact absurd (by simpa using hk') he
          · exact List.any_eq_true.mpr ⟨e', hm, hk'⟩
        simpa [mapGet, List.find?_cons, he] using ih hany'
  · rename_i hany
    have hnone : m.find? (fun e => e.1 == k) = none := by
      rw [List.find?_eq_none]
      intro e he hk'
      exact hany (List.any_eq_true.mpr ⟨e, he, hk'⟩)
    simp [mapGet, List.find?_append, hnone]

theorem mapGet_map_replace (m : List (ℕ × ℤ)) (k : ℕ) (v : ℤ) (k' : ℕ) (hne : k' ≠ k) :
    mapGet (m.map (fun e => if e.1 == k then (k, v) else e)) k' = mapGet m k' := by
  induction m with
  | nil => rfl
  | cons e m ih =>
    rw [List.map_cons]
    by_cases he : e.1 = k
    · have hfe : (if (e.1 == k) = true then (k, v) else e) = (k, v) := by simp [he]
      rw [hfe]
      unfold mapGet
      rw [List.find?_cons_of_neg _ (by simp; exact fun h => hne h.symm),
        List.find?_cons_of_neg _ (by simp [he]; exact fun h => hne h.symm)]
      exact ih
    · have hfe : (if (e.1 == k) = true then (k, v) else e) = e := by simp [he]
      rw [hfe]
      by_cases he' : e.1 = k'
      · unfold mapGet
        rw [List.find?_cons_of_pos _ (by simp [he']),
          List.find?_cons_of_pos _ (by simp [he'])]
      · unfold mapGet
        rw [List.find?_cons_of_neg _ (by simp [he']),
          List.find?_cons_of_neg _ (by simp [he'])]
        exact ih

theorem mapGet_mapSet_ne (m : List (ℕ × ℤ)) (k : ℕ) (v : ℤ) (k' : ℕ) (hne : k' ≠ k) :
    mapGet (mapSet m k v) k' = mapGet m k' := by
  unfold mapSet
  split
  · exact mapGet_map_replace m k v k' hne
  · unfold mapGet
    rw [List.find?_append]
    have h1 : List.find? (fun e => e.1 == k') [(k, v)] = none := by
      rw [List.find?_cons_of_neg _ (by simp; exact fun h => hne h.symm)]
      rfl
    rw [h1]
    cases m.find? (fun e => e.1 == k') <;> rfl

theorem mapSet_preserves_inv (m : List (ℕ × ℤ)) (k : ℕ) (v : ℤ) (id : ℕ) (hh : ℤ)
    (hk : k ≠ id)
    (hm : (m.map Prod.fst).Nodup ∧ (id, hh) ∈ m ∧
      ∀ e ∈ m, e.1 = id → e = (id, hh)) :
    ((mapSet m k v).map Prod.fst).Nodup ∧ (id, hh) ∈ mapSet m k v ∧
      ∀ e ∈ mapSet m k v, e.1 = id → e = (id, hh) := by
  obtain ⟨h1, h2, h3⟩ := hm
  refine ⟨mapSet_keys_nodup m k v h1,
    mem_mapSet_preserve m k v id hh (fun he => hk he.symm) h2, ?_⟩
  intro e he hke
  rcases mapSet_entry m k v e he with he' | ⟨hem, _⟩
  · rw [he'] at hke
    exact absurd hke hk
  · exact h3 e hem hke

/-- The damage map always has pairwise-distinct keys, contains the seed
entry `{id ↦ destroyedBlock.health}`, and no other entry carries the
tapped block's id (all area-effect entries are for other blocks). -/
theorem damageMapFor_invariant (lp : Bool) (blocks : List Block) (id : ℕ)
    (destroyed : Block) :
    ((damageMapFor lp blocks id destroyed).map Prod.fst).Nodup ∧
    (id, destroyed.health) ∈ damageMapFor lp blocks id destroyed ∧
    ∀ e ∈ damageMapFor lp blocks id destroyed, e.1 = id → e = (id, destroyed.health) := by
  have hseed : mapSet [] id destroyed.health = [(id, destroyed.health)] := rfl
  have hseedP : (([(id, destroyed.health)] : List (ℕ × ℤ)).map Prod.fst).Nodup ∧
      (id, destroyed.health) ∈ ([(id, destroyed.health)] : List (ℕ × ℤ)) ∧
      ∀ e ∈ ([(id, destroyed.health)] : List (ℕ × ℤ)), e.1 = id →
        e = (id, destroyed.health) := by
    refine ⟨by simp, by simp, ?_⟩
    intro e he _
    simpa using he
  unfold damageMapFor
  rw [hseed]
  split
  · refine foldl_preserves _ (fun (m : List (ℕ × ℤ)) => (m.map Prod.fst).Nodup ∧
      (id, destroyed.health) ∈ m ∧ ∀ e ∈ m, e.1 = id → e = (id, destroyed.health))
      ?_ blocks _ hseedP
    intro m block hm
    dsimp only
    split
    · rename_i hcond
      exact mapSet_preserves_inv m block.id _ id destroyed.health hcond.1 hm
    · exact hm
  · refine foldl_preserves _ (fun (m : List (ℕ × ℤ)) => (m.map Prod.fst).Nodup ∧
      (id, destroyed.health) ∈ m ∧ ∀ e ∈ m, e.1 = id → e = (id, destroyed.health))
      ?_ blocks _ hseedP
    intro m block hm
    dsimp only
    split
    · split
      · rename_i hcond
        exact mapSet_preserves_inv m block.id _ id destroyed.health hcond.1 hm
      · exact hm
    · split
      · rename_i hcond
        exact mapSet_preserves_inv m block.id _ id destroyed.health hcond.1 hm
      · exact hm

theorem explosive_fold_skip (pos : ℚ × ℚ × ℚ) (id : ℕ) (k : ℕ) :
    ∀ (bs : List Block) (m : List (ℕ × ℤ)), (∀ b ∈ bs, b.id ≠ k) →
      mapGet (bs.foldl (fun m block =>
        if block.id ≠ id ∧ dist2 pos block.position < 3^2 then
          mapSet m block.id (explosionDamage (dist2 pos block.position))
        else m) m) k = mapGet m k := by
  intro bs
  induction bs with
  | nil => intro m _; rfl
  | cons b bs ih =>
    intro m hne
    rw [List.foldl_cons, ih _ (fun b' hb' => hne b' (List.mem_cons_of_mem b hb'))]
    split
    · exact mapGet_mapSet_ne m b.id _ k (Ne.symm (hne b (List.mem_cons_self b bs)))
    · rfl

theorem explosive_fold_get (pos : ℚ × ℚ × ℚ) (id : ℕ) :
    ∀ (bs : List Block) (m : List (ℕ × ℤ)) (c : Block), c ∈ bs →
      (bs.map Block.id).Nodup → c.id ≠ id → dist2 pos c.position < 3^2 →
      mapGet (bs.foldl (fun m block =>
        if block.id ≠ id ∧ dist2 pos block.position < 3^2 then
          mapSet m block.id (explosionDamage (dist2 pos block.position))
        else m) m) c.id = some (explosionDamage (dist2 pos c.position)) := by
  intro bs
  induction bs with
  | nil => intro m c hc; cases hc
  | cons b bs ih =>
    intro m c hc hnd hcid hdist
    rw [List.map_cons, List.nodup_cons] at hnd
    rw [List.foldl_cons]
    rcases List.mem_cons.mp hc with rfl | hc'
    · rw [if_pos ⟨hcid, hdist⟩]
      have hskip : ∀ b' ∈ bs, b'.id ≠ c.id := by
        intro b' hb' h1
        exact hnd.1 (h1 ▸ List.mem_map_of_mem Block.id hb')
      rw [explosive_fold_skip pos id c.id bs _ hskip]
      exact mapGet_mapSet_self m c.id _
    · exact ih _ c hc' hnd.2 hcid hdist

/-- Every other block within the explosion radius gets a damage-map entry
valued `explosionDamage` of its squared distance. -/
theorem damageMapFor_explosive_get (lp : Bool) (blocks : List Block) (id : ℕ)
    (destroyed c : Block) (hb : destroyed.blockType = BlockType.explosive)
    (hc : c ∈ blocks) (hnd : (blocks.map Block.id).Nodup) (hcid : c.id ≠ id)
    (hdist : dist2 destroyed.position c.position < 9) :
    mapGet (damageMapFor lp blocks id destroyed) c.id =
      some (explosionDamage (dist2 destroyed.position c.position)) := by
  unfold damageMapFor
  rw [if_pos hb]
  refine explosive_fold_get destroyed.position id blocks _ c hc hnd hcid ?_
  rw [show ((3:ℚ)^2) = 9 by norm_num]
  exact hdist

theorem dist2_nonneg (p q : ℚ × ℚ × ℚ) : 0 ≤ dist2 p q := by
  unfold dist2
  positivity

theorem countP_lt_range6 (n : ℤ) (h1 : 1 ≤ n) (h6 : n ≤ 6) :
    (((List.range 6).countP (fun k => decide ((k : ℤ) < n))) : ℤ) = n := by
  interval_cases n <;> decide

/-- The executable `explosionDamage` agrees with the source's
`Math.ceil((3 - distance) * 2)` where `distance = √dsq`. -/
theorem explosionDamage_eq_ceil (q : ℚ) (h9 : q < 9) :
    explosionDamage q = ⌈(3 - Real.sqrt ((q : ℚ) : ℝ)) * 2⌉ := by
  have hq9 : ((q : ℚ) : ℝ) < 9 := by exact_mod_cast h9
  have hd0 : (0:ℝ) ≤ Real.sqrt ((q : ℚ) : ℝ) := Real.sqrt_nonneg _
  have hd3 : Real.sqrt ((q : ℚ) : ℝ) < 3 := by
    rw [Real.sqrt_lt' (by norm_num : (0:ℝ) < 3)]
    norm_num
    exact hq9
  have hn1 : 1 ≤ ⌈(3 - Real.sqrt ((q : ℚ) : ℝ)) * 2⌉ := by
    have h0 : (0:ℝ) < (3 - Real.sqrt ((q : ℚ) : ℝ)) * 2 := by linarith
    have := Int.ceil_pos.mpr h0
    omega
  have hn6 : ⌈(3 - Real.sqrt ((q : ℚ) : ℝ)) * 2⌉ ≤ 6 := by
    apply Int.ceil_le.mpr
    push_cast
    linarith
  have hpt : ∀ k ∈ List.range 6,
      (decide (q < (3 - (k : ℚ)/2)^2)) = true ↔
      (decide ((k : ℤ) < ⌈(3 - Real.sqrt ((q : ℚ) : ℝ)) * 2⌉)) = true := by
    intro k hk
    have hk5 : (k : ℝ) ≤ 5 := by
      have hk6 := List.mem_range.mp hk
      have : k ≤ 5 := by omega
      exact_mod_cast this
    have hpos : (0:ℝ) < 3 - (k : ℝ)/2 := by linarith
    simp only [decide_eq_true_eq]
    rw [Int.lt_ceil]
    constructor
    · intro h1
      have h2 : ((q : ℚ) : ℝ) < (((3 - (k : ℚ)/2)^2 : ℚ) : ℝ) := by exact_mod_cast h1
      push_cast at h2
      have h3 : Real.sqrt ((q : ℚ) : ℝ) < 3 - (k : ℝ)/2 := (Real.sqrt_lt' hpos).mpr h2
      push_cast
      linarith
    · intro h1
      have h2 : ((k : ℤ) : ℝ) < (3 - Real.sqrt ((q : ℚ) : ℝ)) * 2 := by exact_mod_cast h1
      push_cast at h2
      have h3 : Real.sqrt ((q : ℚ) : ℝ) < 3 - (k : ℝ)/2 := by linarith
      have h4 : ((q : ℚ) : ℝ) < ((3:ℝ) - (k : ℝ)/2)^2 := (Real.sqrt_lt' hpos).mp h3
      have h5 : ((q : ℚ) : ℝ) < (((3 - (k : ℚ)/2)^2 : ℚ) : ℝ) := by push_cast; exact h4
      exact_mod_cast h5
  unfold explosionDamage
  rw [List.countP_congr hpt]
  exact countP_lt_range6 _ hn1 hn6

/-- Applying the seeded self-damage entry to the tapped block zeroes its
health, provided the block is not a shield block of health ≥ 2. -/
theorem applyDamageToBlock_self_health (b : Block)
    (h : b.blockType ≠ BlockType.shield ∨ b.health ≤ 1) :
    (applyDamageToBlock b.health b).health = 0 := by
  unfold applyDamageToBlock
  by_cases hs : b.blockType = BlockType.shield
  · rcases h with h | h
    · exact absurd hs h
    · rw [if_pos hs]
      have hle : (b.health : ℚ) / 2 ≤ (⌈(b.health : ℚ) / 2⌉ : ℚ) := Int.le_ceil _
      have h2 : b.health - ⌈(b.health : ℚ) / 2⌉ ≤ 0 := by
        have h3 : ((b.health - ⌈(b.health : ℚ) / 2⌉ : ℤ) : ℚ) < 1 := by
          push_cast
          have hb1 : (b.health : ℚ) ≤ 1 := by exact_mod_cast h
          linarith
        have h4 : b.health - ⌈(b.health : ℚ) / 2⌉ < 1 := by exact_mod_cast h3
        omega
      simp only [max_eq_left_iff]
      omega
  · rw [if_neg hs]
    simp

/-! Lemmas for the Block Field Generator. -/

theorem genCell_ids (cfg : LevelConfig) (layer row col : ℕ) (st : GenState)
    (h : st.blocks.map Block.id = List.range st.nextId) :
    (genCell cfg layer row col st).blocks.map Block.id =
      List.range (genCell cfg layer row col st).nextId := by
  unfold genCell
  dsimp only [Rng.next]
  split
  · simp [h, List.range_succ]
  · exact h

theorem genFiller_ids (cfg : LevelConfig) (st : GenState)
    (h : st.blocks.map Block.id = List.range st.nextId) :
    (genFiller cfg st).blocks.map Block.id = List.range (genFiller cfg st).nextId := by
  unfold genFiller
  dsimp only [Rng.next]
  simp [h, List.range_succ]

theorem genFiller_len (cfg : LevelConfig) (st : GenState) :
    (genFiller cfg st).blocks.length = st.blocks.length + 1 := by
  unfold genFiller
  dsimp only [Rng.next]
  simp

theorem padToCount_len (cfg : LevelConfig) :
    ∀ (n : ℕ) (st : GenState),
      (padToCount cfg n st).blocks.length = st.blocks.length + n := by
  intro n
  induction n with
  | zero => intro st; rfl
  | succ n ih =>
    intro st
    show (padToCount cfg n (genFiller cfg st)).blocks.length = _
    rw [ih, genFiller_len]
    omega

theorem padToCount_ids (cfg : LevelConfig) :
    ∀ (n : ℕ) (st : GenState), st.blocks.map Block.id = List.range st.nextId →
      (padToCount cfg n st).blocks.map Block.id =
        List.range (padToCount cfg n st).nextId := by
  intro n
  induction n with
  | zero => intro st h; exact h
  | succ n ih =>
    intro st h
    exact ih (genFiller cfg st) (genFiller_ids cfg st h)

theorem genGrid_ids (cfg : LevelConfig) (st : GenState)
    (h : st.blocks.map Block.id = List.range st.nextId) :
    (genGrid cfg st).blocks.map Block.id = List.range (genGrid cfg st).nextId := by
  unfold genGrid
  refine foldl_preserves _
    (fun (st : GenState) => st.blocks.map Block.id = List.range st.nextId) ?_ _ _ h
  intro st layer hst
  refine foldl_preserves _
    (fun (st : GenState) => st.blocks.map Block.id = List.range st.nextId) ?_ _ _ hst
  intro st row hst
  refine foldl_preserves _
    (fun (st : GenState) => st.blocks.map Block.id = List.range st.nextId) ?_ _ _ hst
  intro st col hst
  exact genCell_ids cfg layer row col st hst

theorem getLevelConfig_blockCount_pos (level : ℕ) (lp : Bool) :
    1 ≤ (getLevelConfig level lp).blockCount := by
  unfold getLevelConfig
  dsimp only
  split <;> omega

end BlockBreaker

open BlockBreaker

/-! Claim theorems. -/

/-- C1 counterexample: with combo 4 and a destruction gap of 5000 ms
(≥ 1000 ms), the combo resets to 1 but the score delta is 50 =
level·10·min(4+1, 5), not level·10·min(1, 5) = 10 as the claim's
"min(combo, 5) where combo is the updated combo value" requires. -/
theorem c1_reset_multiplier_counterexample :
    (handleBlockDestroy false 5000 0 sCombo).combo = 1 ∧
    (handleBlockDestroy false 5000 0 sCombo).score - sCombo.score = 50 ∧
    (handleBlockDestroy false 5000 0 sCombo).score - sCombo.score ≠
      ((sCombo.level : ℤ) * 10) * min ((handleBlockDestroy false 5000 0 sCombo).combo) 5 := by
  decide

/-- C1 (amended): on a destruction event the combo increments by 1 when the
gap since the previous destruction is < 1000 ms and resets to 1 otherwise;
the multiplier applied to the score delta is min(previousCombo + 1, 5) —
which coincides with min(updatedCombo, 5) exactly when the gap is
< 1000 ms (on a reset the stale previous combo is used instead). -/
theorem c1_combo_and_multiplier (lp : Bool) (now : ℤ) (id : ℕ) (s : GameSession)
    (b : Block) (hfind : s.blocks.find? (fun x => x.id == id) = some b) :
    ((handleBlockDestroy lp now id s).combo =
      if now - s.lastBlockDestroyTime < 1000 then s.combo + 1 else 1) ∧
    ((handleBlockDestroy lp now id s).score - s.score =
      ((s.level : ℤ) * 10) * (if b.blockType = BlockType.bonus then 2 else 1) *
        min (s.combo + 1) 5 *
        (if s.activePowerUp = some PowerUpType.multiplier then 2 else 1)) ∧
    (now - s.lastBlockDestroyTime < 1000 →
      min (s.combo + 1) 5 = min ((handleBlockDestroy lp now id s).combo) 5) := by
  unfold handleBlockDestroy
  rw [hfind]
  dsimp only
  refine ⟨rfl, ?_, ?_⟩
  · split_ifs <;> ring
  · intro h
    rw [if_pos h]

/-- Witness for C1 (amended): a destruction 500 ms after the previous one,
at combo 4 with a normal block. -/
theorem c1_combo_and_multiplier_witness :
    ((handleBlockDestroy false 500 0 sCombo).combo =
      if (500:ℤ) - sCombo.lastBlockDestroyTime < 1000 then sCombo.combo + 1 else 1) ∧
    ((handleBlockDestroy false 500 0 sCombo).score - sCombo.score =
      ((sCombo.level : ℤ) * 10) *
        (if (testBlock 0 (0, 0, 0) 1 BlockType.normal).blockType = BlockType.bonus
          then 2 else 1) *
        min (sCombo.combo + 1) 5 *
        (if sCombo.activePowerUp = some PowerUpType.multiplier then 2 else 1)) ∧
    ((500:ℤ) - sCombo.lastBlockDestroyTime < 1000 →
      min (sCombo.combo + 1) 5 = min ((handleBlockDestroy false 500 0 sCombo).combo) 5) :=
  c1_combo_and_multiplier false 500 0 sCombo (testBlock 0 (0, 0, 0) 1 BlockType.normal)
    (by rfl)

/-- C2 counterexample: tapping the single shield block of health 2 leaves it
in the returned set with health 1 — the seeded self-damage is halved by the
shield mitigation, so the tapped block is not removed. -/
theorem c2_shield_survives_counterexample :
    sShield.blocks.find? (fun b => b.id == 0) =
      some (testBlock 0 (0, 0, 0) 2 BlockType.shield) ∧
    (handleBlockDestroy false 0 0 sShield).blocks.map (fun b => (b.id, b.health)) =
      [(0, 1)] := by
  constructor
  · rfl
  · have hfind : sShield.blocks.find? (fun b => b.id == 0) =
        some (testBlock 0 (0, 0, 0) 2 BlockType.shield) := rfl
    unfold handleBlockDestroy
    rw [hfind]
    dsimp only
    norm_num [damageMapFor, mapSet, applyDamageMap, applyDamageToBlock, sShield,
      baseSession, testBlock, dist2]

/-- C2 (amended): in a hit-resolution pass on a present block id (with
pairwise-distinct block ids), no block with health ≤ 0 remains in the
returned set; and the tapped block itself is removed provided it is not a
shield block with health ≥ 2 (a tapped shield block of health h ≥ 2 takes
only ceil(h/2) of its seeded self-damage and survives with h − ceil(h/2)). -/
theorem c2_resolution_removal (lp : Bool) (now : ℤ) (id : ℕ) (s : GameSession)
    (b : Block) (hfind : s.blocks.find? (fun x => x.id == id) = some b)
    (hnodup : (s.blocks.map Block.id).Nodup) :
    (∀ c ∈ (handleBlockDestroy lp now id s).blocks, 0 < c.health) ∧
    ((b.blockType ≠ BlockType.shield ∨ b.health ≤ 1) →
      ∀ c ∈ (handleBlockDestroy lp now id s).blocks, c.id ≠ id) := by
  have hbid : b.id = id := by simpa using List.find?_some hfind
  have hbmem : b ∈ s.blocks := List.mem_of_find?_eq_some hfind
  unfold handleBlockDestroy
  rw [hfind]
  dsimp only
  constructor
  · intro c hc
    rw [List.mem_filter] at hc
    have h2 := hc.2
    simp only [Bool.not_eq_true', decide_eq_false_iff_not, not_le] at h2
    exact h2
  · intro hsh c hc hcid
    rw [List.mem_filter, applyDamageMap_eq_map] at hc
    obtain ⟨⟨bl, hbl, rfl⟩, h2⟩ := And.imp_left List.mem_map.mp hc
    have hblid : bl.id = id := by
      rw [← applyEntries_id (damageMapFor lp s.blocks id b) bl]
      exact hcid
    have hbleq : bl = b :=
      List.inj_on_of_nodup_map hnodup hbl hbmem (by rw [hblid, hbid])
    subst hbleq
    obtain ⟨hkeys, hmem, _⟩ := damageMapFor_invariant lp s.blocks id bl
    have happ : applyEntries (damageMapFor lp s.blocks id bl) bl =
        applyDamageToBlock bl.health bl :=
      applyEntries_single _ _ _ hkeys (by rw [hblid]; exact hmem)
    rw [happ, applyDamageToBlock_self_health bl hsh] at h2
    simp at h2

/-- Witness for C2 (amended): tapping the single normal block of health 1
leaves a set whose members all have positive health and an id other than
the tapped one. -/
theorem c2_resolution_removal_witness :
    ((handleBlockDestroy false 0 0 sSolo).blocks.all
      (fun c => decide (0 < c.health) && decide (c.id ≠ 0))) = true := by
  have h := c2_resolution_removal false 0 0 sSolo
    (testBlock 0 (0, 0, 0) 1 BlockType.normal) (by rfl) (by decide)
  rw [List.all_eq_true]
  intro c hc
  rw [Bool.and_eq_true, decide_eq_true_eq, decide_eq_true_eq]
  exact ⟨h.1 c hc, h.2 (Or.inl (by decide)) c hc⟩

/-- C3 counterexample: at level 1 with the low-performance flag set,
`getLevelConfig` returns `blockCount = 4`, violating the claimed
`blockCount ≥ 6`. -/
theorem c3_counterexample_lowPerf_level1 :
    (getLevelConfig 1 true).blockCount = 4 ∧ ¬ 6 ≤ (getLevelConfig 1 true).blockCount := by
  decide

/-- C3 (amended): for every level L in [1,10] and every lowPerformance flag,
`getLevelConfig` returns rows ≥ 2, columns ≥ 2, layers ≥ 1 and timeLimit = 10;
blockCount ≥ 6 holds when lowPerformance is false, while with lowPerformance
set blockCount is only guaranteed ≥ 4 (it is 4 at level 1 and 5 at level 2). -/
theorem c3_getLevelConfig_bounds (L : ℕ) (h1 : 1 ≤ L) (h10 : L ≤ 10) (lp : Bool) :
    2 ≤ (getLevelConfig L lp).rows ∧
    2 ≤ (getLevelConfig L lp).columns ∧
    1 ≤ (getLevelConfig L lp).layers ∧
    (getLevelConfig L lp).timeLimit = 10 ∧
    (lp = false → 6 ≤ (getLevelConfig L lp).blockCount) ∧
    (lp = true → 4 ≤ (getLevelConfig L lp).blockCount) := by
  interval_cases L <;> cases lp <;> decide

/-- Witness for C3 (amended) at L = 1, lp = false. -/
theorem c3_getLevelConfig_bounds_witness :
    2 ≤ (getLevelConfig 1 false).rows ∧
    2 ≤ (getLevelConfig 1 false).columns ∧
    1 ≤ (getLevelConfig 1 false).layers ∧
    (getLevelConfig 1 false).timeLimit = 10 ∧
    6 ≤ (getLevelConfig 1 false).blockCount := by
  have h := c3_getLevelConfig_bounds 1 (by decide) (by decide) false
  exact ⟨h.1, h.2.1, h.2.2.1, h.2.2.2.1, h.2.2.2.2.1 rfl⟩

/-- C4: when the destroyed block is explosive, every other block at squared
distance < 9 (i.e. distance < 3.0) gets a damage-map entry equal to
⌈(3 − distance)·2⌉; concretely, neighbors at distances 0.5, 1.5 and 2.9
receive damages 5, 3 and 1, and the resulting healths floor at 0 (the
health-3 neighbor at distance 0.5 ends at 0). -/
theorem c4_explosive_area_damage :
    (∀ (lp : Bool) (blocks : List Block) (id : ℕ) (destroyed c : Block),
      destroyed.blockType = BlockType.explosive → c ∈ blocks →
      (blocks.map Block.id).Nodup → c.id ≠ id →
      dist2 destroyed.position c.position < 9 →
      mapGet (damageMapFor lp blocks id destroyed) c.id =
        some (explosionDamage (dist2 destroyed.position c.position)) ∧
      explosionDamage (dist2 destroyed.position c.position) =
        ⌈(3 - Real.sqrt ((dist2 destroyed.position c.position : ℚ) : ℝ)) * 2⌉) ∧
    (mapGet (damageMapFor false c4blocks 0 c4b) 1 = some 5 ∧
     mapGet (damageMapFor false c4blocks 0 c4b) 2 = some 3 ∧
     mapGet (damageMapFor false c4blocks 0 c4b) 3 = some 1 ∧
     (applyDamageMap (damageMapFor false c4blocks 0 c4b) c4blocks).map
       (fun b => (b.id, b.health)) = [(0, 0), (1, 4), (2, 6), (3, 8), (4, 0)]) := by
  constructor
  · intro lp blocks id destroyed c hb hc hnd hcid hdist
    exact ⟨damageMapFor_explosive_get lp blocks id destroyed c hb hc hnd hcid hdist,
      explosionDamage_eq_ceil _ hdist⟩
  · have hmap : damageMapFor false c4blocks 0 c4b =
        [(0, 1), (1, 5), (2, 3), (3, 1), (4, 5)] := by
      norm_num [damageMapFor, mapSet, c4blocks, c4b, testBlock, dist2, explosionDamage,
        List.range_succ]
    refine ⟨by rw [hmap]; rfl, by rw [hmap]; rfl, by rw [hmap]; rfl, ?_⟩
    rw [hmap]
    norm_num [applyDamageMap, applyDamageToBlock, c4blocks, c4b, testBlock]
    split_ifs <;> simp_all

/-- Witness for C4's general part at the neighbor of distance 0.5. -/
theorem c4_explosive_area_damage_witness :
    mapGet (damageMapFor false c4blocks 0 c4b)
        (testBlock 1 (1/2, 0, 0) 9 BlockType.normal).id =
      some (explosionDamage
        (dist2 c4b.position (testBlock 1 (1/2, 0, 0) 9 BlockType.normal).position)) ∧
    explosionDamage
        (dist2 c4b.position (testBlock 1 (1/2, 0, 0) 9 BlockType.normal).position) =
      ⌈(3 - Real.sqrt ((dist2 c4b.position
          (testBlock 1 (1/2, 0, 0) 9 BlockType.normal).position : ℚ) : ℝ)) * 2⌉ :=
  c4_explosive_area_damage.1 false c4blocks 0 c4b
    (testBlock 1 (1/2, 0, 0) 9 BlockType.normal) (by rfl)
    (by simp [c4blocks]) (by norm_num [c4blocks, c4b, testBlock]) (by decide)
    (by norm_num [dist2, c4b, testBlock])

/-- C5: applying a damage-map entry (blockId, damage) to a block of that id
subtracts ceil(damage/2) when the block's type is shield and the full
damage otherwise, flooring health at 0. -/
theorem c5_shield_halves_damage (m : List (ℕ × ℤ)) (blocks : List Block) (b : Block)
    (v : ℤ) (hkeys : (m.map Prod.fst).Nodup) (hb : b ∈ blocks) (hmem : (b.id, v) ∈ m) :
    ∃ c ∈ applyDamageMap m blocks, c.id = b.id ∧
      c.health = max 0 (b.health -
        (if b.blockType = BlockType.shield then ⌈(v : ℚ) / 2⌉ else v)) := by
  refine ⟨applyEntries m b, ?_, applyEntries_id m b, ?_⟩
  · rw [applyDamageMap_eq_map]
    exact List.mem_map_of_mem _ hb
  · rw [applyEntries_single m b v hkeys hmem]
    rfl

/-- Witness for C5: a shield block of health 9 hit by a damage-5 entry ends
at health 9 − ⌈5/2⌉ = 6. -/
theorem c5_shield_halves_damage_witness :
    ((applyDamageMap [((0:ℕ), (5:ℤ))] [testBlock 0 (0, 0, 0) 9 BlockType.shield]).any
      (fun c => decide (c.id = 0) && decide (c.health = 6))) = true := by
  obtain ⟨c, hc, h1, h2⟩ := c5_shield_halves_damage [((0:ℕ), (5:ℤ))]
    [testBlock 0 (0, 0, 0) 9 BlockType.shield]
    (testBlock 0 (0, 0, 0) 9 BlockType.shield) 5 (by simp) (by simp)
    (by simp [testBlock])
  rw [List.any_eq_true]
  refine ⟨c, hc, ?_⟩
  rw [Bool.and_eq_true, decide_eq_true_eq, decide_eq_true_eq]
  refine ⟨h1.trans rfl, ?_⟩
  rw [h2]
  have hc3 : (⌈(5:ℚ)/2⌉ : ℤ) = 3 := by rw [Int.ceil_eq_iff]; norm_num
  norm_num [testBlock, hc3]

/-- C6: collecting a bomb power-up keeps exactly the blocks that have
health > 2 or are shields, adds level×10 per removed block to the score,
and finishes with no active power-up and a zero power-up timer. -/
theorem c6_bomb_collect (s : GameSession) :
    (∀ b : Block, b ∈ (handlePowerUpCollect PowerUpType.bomb s).blocks ↔
      (b ∈ s.blocks ∧ (2 < b.health ∨ b.blockType = BlockType.shield))) ∧
    (handlePowerUpCollect PowerUpType.bomb s).score =
      s.score + ((s.blocks.length : ℤ) -
        ((handlePowerUpCollect PowerUpType.bomb s).blocks.length : ℤ)) *
        ((s.level : ℤ) * 10) ∧
    (handlePowerUpCollect PowerUpType.bomb s).activePowerUp = none ∧
    (handlePowerUpCollect PowerUpType.bomb s).powerUpTimeLeft = 0 := by
  unfold handlePowerUpCollect
  dsimp only
  refine ⟨?_, ?_, rfl, rfl⟩
  · intro b
    rw [List.mem_filter]
    simp only [Bool.not_eq_true', decide_eq_false_iff_not]
    constructor
    · rintro ⟨h1, h2⟩
      refine ⟨h1, ?_⟩
      by_cases hh : b.health ≤ 2
      · right
        by_contra hsh
        exact h2 ⟨hh, hsh⟩
      · left; omega
    · rintro ⟨h1, h2⟩
      refine ⟨h1, ?_⟩
      rintro ⟨hh, hsh⟩
      rcases h2 with h2 | h2
      · omega
      · exact hsh h2
  · have hcount : s.blocks.countP
        (fun b => decide (b.health ≤ 2 ∧ b.blockType ≠ BlockType.shield)) +
        (s.blocks.filter
          (fun b => !decide (b.health ≤ 2 ∧ b.blockType ≠ BlockType.shield))).length =
        s.blocks.length := by
      rw [← List.countP_eq_length_filter]
      have hnot : (s.blocks.countP
          (fun b => !decide (b.health ≤ 2 ∧ b.blockType ≠ BlockType.shield))) =
          s.blocks.countP (fun b =>
            decide ¬((decide (b.health ≤ 2 ∧ b.blockType ≠ BlockType.shield)) = true)) := by
        apply List.countP_congr
        intro a _
        cases h : decide (a.health ≤ 2 ∧ a.blockType ≠ BlockType.shield) <;> simp [h]
      rw [hnot]
      exact (List.length_eq_countP_add_countP _ _).symm
    have hcast : ((s.blocks.countP
        (fun b => decide (b.health ≤ 2 ∧ b.blockType ≠ BlockType.shield)) : ℤ)) =
        (s.blocks.length : ℤ) - ((s.blocks.filter
          (fun b => !decide (b.health ≤ 2 ∧ b.blockType ≠ BlockType.shield))).length : ℤ) := by
      omega
    rw [hcast]

/-- Witness for C6: on a level-4 session the bomb removes only the
health-2 normal block, awards 40 points, and leaves no active power-up. -/
theorem c6_bomb_collect_witness :
    testBlock 2 (0, 0, 0) 3 BlockType.normal ∈
      (handlePowerUpCollect PowerUpType.bomb sBomb).blocks ∧
    (handlePowerUpCollect PowerUpType.bomb sBomb).score = 40 ∧
    (handlePowerUpCollect PowerUpType.bomb sBomb).activePowerUp = none ∧
    (handlePowerUpCollect PowerUpType.bomb sBomb).powerUpTimeLeft = 0 := by
  have h := c6_bomb_collect sBomb
  refine ⟨(h.1 _).mpr ⟨by decide, by decide⟩, ?_, h.2.2.1, h.2.2.2⟩
  rw [h.2.1]
  decide

/-- C7: for every level and performance flag and every random stream, the
Block Field Generator yields at least blockCount blocks, at least one
block, and sequential ids 0..n−1. -/
theorem c7_block_field_generator (level : ℕ) (lp : Bool) (rng : Rng) :
    (getLevelConfig level lp).blockCount ≤
      (initializeLevelBlocks (getLevelConfig level lp) rng).length ∧
    1 ≤ (initializeLevelBlocks (getLevelConfig level lp) rng).length ∧
    (initializeLevelBlocks (getLevelConfig level lp) rng).map Block.id =
      List.range (initializeLevelBlocks (getLevelConfig level lp) rng).length := by
  have hbc := getLevelConfig_blockCount_pos level lp
  unfold initializeLevelBlocks
  dsimp only
  set cfg := getLevelConfig level lp with hcfg
  set st1 := genGrid cfg
    { rng := rng, nextId := 0,
      counts := { explosive := 0, heavy := 0, bonus := 0, shield := 0 }, blocks := [] }
    with hst1
  have hgrid : st1.blocks.map Block.id = List.range st1.nextId := by
    rw [hst1]
    exact genGrid_ids cfg _ (by simp)
  have hids := padToCount_ids cfg (cfg.blockCount - st1.blocks.length) st1 hgrid
  have hlen := padToCount_len cfg (cfg.blockCount - st1.blocks.length) st1
  refine ⟨by omega, by omega, ?_⟩
  have hlen2 : (padToCount cfg (cfg.blockCount - st1.blocks.length) st1).blocks.length =
      (padToCount cfg (cfg.blockCount - st1.blocks.length) st1).nextId := by
    have := congrArg List.length hids
    simpa using this
  rw [hids, hlen2]

/-- C8: one firing of the per-second timer decrements timeLeft by 1
exactly when the state is playing, timeLeft > 0 and the active power-up is
not freeze (so the countdown never decreases while freeze is active), and
the resulting state is gameOver exactly when the decrement reaches 0. -/
theorem c8_timer_tick (s : GameSession) :
    ((s.gameState = GameStateTag.playing ∧ 0 < s.timeLeft ∧
        s.activePowerUp ≠ some PowerUpType.freeze) →
      (timerTick s).timeLeft = s.timeLeft - 1 ∧
      ((timerTick s).gameState = GameStateTag.gameOver ↔ s.timeLeft = 1)) ∧
    ((¬ (s.gameState = GameStateTag.playing ∧ 0 < s.timeLeft)) → timerTick s = s) ∧
    (s.activePowerUp = some PowerUpType.freeze → timerTick s = s) := by
  unfold timerTick
  refine ⟨?_, ?_, ?_⟩
  · rintro ⟨h1, h2, h3⟩
    rw [if_pos ⟨h1, h2⟩, if_pos h3]
    dsimp only
    refine ⟨rfl, ?_⟩
    split
    · rename_i h
      constructor
      · intro _; omega
      · intro _; rfl
    · rename_i h
      constructor
      · intro hg; rw [h1] at hg; exact absurd hg (by decide)
      · intro ht; exact absurd (by omega : s.timeLeft - 1 = 0) h
  · intro h
    rw [if_neg h]
  · intro h
    split
    · rw [if_neg (not_not_intro h)]
    · rfl

/-- Witness for C8: a playing session with timeLeft 10 and no power-up. -/
theorem c8_timer_tick_witness :
    (timerTick sTimer).timeLeft = sTimer.timeLeft - 1 ∧
    ((timerTick sTimer).gameState = GameStateTag.gameOver ↔ sTimer.timeLeft = 1) := by
  have harg : sTimer.gameState = GameStateTag.playing ∧ 0 < sTimer.timeLeft ∧
      sTimer.activePowerUp ≠ some PowerUpType.freeze := by
    refine ⟨?_, ?_, ?_⟩ <;> decide
  exact (c8_timer_tick sTimer).1 harg

/-- C9: invoking the Hit Resolution Engine with an absent block id is a
silent no-op — the whole session (blocks, score, combo, counters) is
returned unchanged. -/
theorem c9_tap_absent_noop (lp : Bool) (now : ℤ) (id : ℕ) (s : GameSession)
    (h : ∀ b ∈ s.blocks, b.id ≠ id) :
    handleBlockDestroy lp now id s = s := by
  unfold handleBlockDestroy
  have hf : s.blocks.find? (fun b => b.id == id) = none := by
    rw [List.find?_eq_none]
    intro b hb
    simpa using h b hb
  rw [hf]

/-- Witness for C9: tapping id 7 in a session whose only block has id 0. -/
theorem c9_tap_absent_noop_witness : handleBlockDestroy false 0 7 sSolo = sSolo :=
  c9_tap_absent_noop false 0 7 sSolo (by decide)

/-- C10: collecting a bomb power-up never changes gameState or timeLeft
(even when it empties the block set), while the Hit Resolution Engine does
transition to levelComplete when its returned block set is empty. -/
theorem c10_bomb_lifecycle (s : GameSession) (lp : Bool) (now : ℤ) (id : ℕ)
    (b : Block) (hfind : s.blocks.find? (fun x => x.id == id) = some b) :
    (handlePowerUpCollect PowerUpType.bomb s).gameState = s.gameState ∧
    (handlePowerUpCollect PowerUpType.bomb s).timeLeft = s.timeLeft ∧
    ((handleBlockDestroy lp now id s).blocks = [] →
      (handleBlockDestroy lp now id s).gameState = GameStateTag.levelComplete) := by
  refine ⟨rfl, rfl, ?_⟩
  intro hempty
  unfold handleBlockDestroy at hempty ⊢
  rw [hfind] at hempty ⊢
  dsimp only at hempty ⊢
  rw [if_pos hempty]

/-- Witness for C10: the bomb leaves gameState and timeLeft untouched on
`sSolo`, and destroying its only block yields levelComplete. -/
theorem c10_bomb_lifecycle_witness :
    (handlePowerUpCollect PowerUpType.bomb sSolo).gameState = sSolo.gameState ∧
    (handlePowerUpCollect PowerUpType.bomb sSolo).timeLeft = sSolo.timeLeft ∧
    (handleBlockDestroy false 0 0 sSolo).gameState = GameStateTag.levelComplete := by
  have h := c10_bomb_lifecycle sSolo false 0 0
    (testBlock 0 (0, 0, 0) 1 BlockType.normal) (by rfl)
  refine ⟨h.1, h.2.1, h.2.2 ?_⟩
  have hfind : sSolo.blocks.find? (fun b => b.id == 0) =
      some (testBlock 0 (0, 0, 0) 1 BlockType.normal) := rfl
  unfold handleBlockDestroy
  rw [hfind]
  dsimp only
  norm_num [damageMapFor, mapSet, applyDamageMap, applyDamageToBlock, sSolo,
    baseSession, testBlock, dist2]
  split_ifs <;> simp_all
